import Mathlib

/-!
Verification of the PE image-section-header decoder (`src/pe.rs` of the
`pdb` crate): the data model `ImageSectionHeader`, its byte-exact `parse`
from a cursor over a byte slice, and the `name` accessor that trims the
8-byte name field at the first null byte.

Bytes are modelled as `Nat` values (each in-range byte is below 256; no
arithmetic here can overflow a `u32`, because every multi-byte integer is
assembled from at most four bytes). Fallible reads return `Except`.
-/

abbrev Byte := Nat

/-- The one error kind observable from this component: the short-buffer
error that the cursor raises when a read requests more bytes than remain.
The decoder propagates it verbatim. -/
inductive PdbError where
  | unexpectedEof
deriving DecidableEq, Repr

/-- Modelled from the spec: the cursor type `ParseBuffer` lives in the
crate's `common` module, which is not part of the sources under
verification; the spec describes it as a byte-oriented read cursor with an
internal position over a byte slice. -/
structure ParseBuffer where
  data : List Byte
  pos : Nat
deriving DecidableEq, Repr

namespace ParseBuffer

/-- Number of bytes left in the cursor. -/
def remaining (pb : ParseBuffer) : Nat := pb.data.length - pb.pos

/-- Modelled from the spec: `take(n)` borrows the next `n` bytes as a
contiguous view and advances by `n`; it fails with short-buffer when fewer
than `n` bytes remain, leaving the primitive all-or-nothing. -/
def take (pb : ParseBuffer) (n : Nat) : Except PdbError (List Byte × ParseBuffer) :=
  if pb.pos + n ≤ pb.data.length then
    Except.ok ((pb.data.drop pb.pos).take n, { data := pb.data, pos := pb.pos + n })
  else
    Except.error PdbError.unexpectedEof

/-- Little-endian value of a byte run: the head is the least significant
byte. -/
def leDecode (bs : List Byte) : Nat :=
  bs.foldr (fun b acc => b + 256 * acc) 0

/-- Modelled from the spec: read a little-endian `u32`, consuming 4 bytes;
fails with short-buffer when fewer than 4 bytes remain. -/
def parse_u32 (pb : ParseBuffer) : Except PdbError (Nat × ParseBuffer) :=
  match pb.take 4 with
  | Except.ok (bs, pb') => Except.ok (leDecode bs, pb')
  | Except.error e => Except.error e

/-- Modelled from the spec: read a little-endian `u16`, consuming 2 bytes;
fails with short-buffer when fewer than 2 bytes remain. -/
def parse_u16 (pb : ParseBuffer) : Except PdbError (Nat × ParseBuffer) :=
  match pb.take 2 with
  | Except.ok (bs, pb') => Except.ok (leDecode bs, pb')
  | Except.error e => Except.error e

end ParseBuffer

/-- A PE `IMAGE_SECTION_HEADER`: the decoded record, one field per wire
slot, in on-disk order. -/
structure ImageSectionHeader where
  name : List Byte
  physical_address : Nat
  virtual_address : Nat
  size_of_raw_data : Nat
  pointer_to_raw_data : Nat
  pointer_to_relocations : Nat
  pointer_to_line_numbers : Nat
  number_of_relocations : Nat
  number_of_line_numbers : Nat
  characteristics : Nat
deriving DecidableEq, Repr

/-- Embedding of `ImageSectionHeader::parse`: take 8 name bytes (indexing
each of the 8 positions of the returned view, as the source does with
`name_bytes[0]` .. `name_bytes[7]`; the default of `getD` models the
unreachable out-of-bounds case), then six little-endian u32 reads, two
u16 reads and a final u32 read, each propagating the cursor failure. -/
def ImageSectionHeader.parse (parse_buffer : ParseBuffer) :
    Except PdbError (ImageSectionHeader × ParseBuffer) :=
  match parse_buffer.take 8 with
  | Except.error e => Except.error e
  | Except.ok (name_bytes, pb1) =>
  match pb1.parse_u32 with
  | Except.error e => Except.error e
  | Except.ok (physical_address, pb2) =>
  match pb2.parse_u32 with
  | Except.error e => Except.error e
  | Except.ok (virtual_address, pb3) =>
  match pb3.parse_u32 with
  | Except.error e => Except.error e
  | Except.ok (size_of_raw_data, pb4) =>
  match pb4.parse_u32 with
  | Except.error e => Except.error e
  | Except.ok (pointer_to_raw_data, pb5) =>
  match pb5.parse_u32 with
  | Except.error e => Except.error e
  | Except.ok (pointer_to_relocations, pb6) =>
  match pb6.parse_u32 with
  | Except.error e => Except.error e
  | Except.ok (pointer_to_line_numbers, pb7) =>
  match pb7.parse_u16 with
  | Except.error e => Except.error e
  | Except.ok (number_of_relocations, pb8) =>
  match pb8.parse_u16 with
  | Except.error e => Except.error e
  | Except.ok (number_of_line_numbers, pb9) =>
  match pb9.parse_u32 with
  | Except.error e => Except.error e
  | Except.ok (characteristics, pb10) =>
    Except.ok
      ({ name := [name_bytes.getD 0 0, name_bytes.getD 1 0, name_bytes.getD 2 0,
                  name_bytes.getD 3 0, name_bytes.getD 4 0, name_bytes.getD 5 0,
                  name_bytes.getD 6 0, name_bytes.getD 7 0],
         physical_address := physical_address,
         virtual_address := virtual_address,
         size_of_raw_data := size_of_raw_data,
         pointer_to_raw_data := pointer_to_raw_data,
         pointer_to_relocations := pointer_to_relocations,
         pointer_to_line_numbers := pointer_to_line_numbers,
         number_of_relocations := number_of_relocations,
         number_of_line_numbers := number_of_line_numbers,
         characteristics := characteristics }, pb10)

/-- Embedding of `ImageSectionHeader::name`: position of the first null
byte (`Option`), defaulted to the full length, and the slice of `name`
up to that index. The borrowed `RawString` view is modelled as the byte
list it wraps. -/
def ImageSectionHeader.nameView (self : ImageSectionHeader) : List Byte :=
  let first_nul := self.name.findIdx? (fun ch => ch == 0)
  self.name.take (first_nul.getD self.name.length)

/-- Header contents the spec predicts for input bytes `b` (the bytes from
the cursor position on): `name` is `b[0..8]` verbatim, and the seven
integer slots are little-endian decodes at fixed byte offsets 8, 12, 16,
20, 24, 28 (width 4), 32, 34 (width 2) and 36 (width 4). -/
def expectedHeader (b : List Byte) : ImageSectionHeader where
  name := b.take 8
  physical_address := ParseBuffer.leDecode ((b.drop 8).take 4)
  virtual_address := ParseBuffer.leDecode ((b.drop 12).take 4)
  size_of_raw_data := ParseBuffer.leDecode ((b.drop 16).take 4)
  pointer_to_raw_data := ParseBuffer.leDecode ((b.drop 20).take 4)
  pointer_to_relocations := ParseBuffer.leDecode ((b.drop 24).take 4)
  pointer_to_line_numbers := ParseBuffer.leDecode ((b.drop 28).take 4)
  number_of_relocations := ParseBuffer.leDecode ((b.drop 32).take 2)
  number_of_line_numbers := ParseBuffer.leDecode ((b.drop 34).take 2)
  characteristics := ParseBuffer.leDecode ((b.drop 36).take 4)

/-- The 40-byte input of the crate's `image_section_header` unit test: the
header of a `.data` section. -/
def dotDataBytes : List Byte :=
  [0x2E, 0x64, 0x61, 0x74, 0x61, 0x00, 0x00, 0x00,
   0x48, 0x35, 0x09, 0x00, 0x00, 0xD0, 0x1E, 0x00,
   0x00, 0xFE, 0x00, 0x00, 0x00, 0xA2, 0x1E, 0x00,
   0x00, 0x00, 0x00, 0x00, 0x00, 0x00, 0x00, 0x00,
   0x00, 0x00, 0x00, 0x00, 0x40, 0x00, 0x00, 0xC8]

/-- The header the crate's unit test expects for `dotDataBytes`. -/
def dotDataHeader : ImageSectionHeader where
  name := [0x2E, 0x64, 0x61, 0x74, 0x61, 0x00, 0x00, 0x00]
  physical_address := 0x00093548
  virtual_address := 0x001ED000
  size_of_raw_data := 0x0000FE00
  pointer_to_raw_data := 0x001EA200
  pointer_to_relocations := 0
  pointer_to_line_numbers := 0
  number_of_relocations := 0
  number_of_line_numbers := 0
  characteristics := 0xC8000040

namespace ParseBuffer

/-- Successful `take`: when `n` bytes remain, it returns the next `n`
bytes and a cursor advanced to `pos'` (stated with the target position as
a parameter so rewrites can use normalized literals). -/
theorem take_eq_ok (data : List Byte) (pos n pos' : Nat) (hp : pos' = pos + n)
    (h : pos + n ≤ data.length) :
    take ⟨data, pos⟩ n = Except.ok ((data.drop pos).take n, ⟨data, pos'⟩) := by
  subst hp
  simp [take, h]

/-- Failing `take`: with fewer than `n` bytes left it reports the
short-buffer error. -/
theorem take_eq_err (data : List Byte) (pos n : Nat) (h : data.length < pos + n) :
    take ⟨data, pos⟩ n = Except.error PdbError.unexpectedEof := by
  have hn : ¬ (pos + n ≤ data.length) := by omega
  simp [take, hn]

/-- Successful `parse_u32`: little-endian decode of the 4 bytes at `pos`. -/
theorem parse_u32_eq_ok (data : List Byte) (pos pos' : Nat) (hp : pos' = pos + 4)
    (h : pos + 4 ≤ data.length) :
    parse_u32 ⟨data, pos⟩ =
      Except.ok (leDecode ((data.drop pos).take 4), ⟨data, pos'⟩) := by
  subst hp
  simp [parse_u32, take_eq_ok data pos 4 (pos + 4) rfl h]

/-- Failing `parse_u32`: fewer than 4 bytes left. -/
theorem parse_u32_eq_err (data : List Byte) (pos : Nat) (h : data.length < pos + 4) :
    parse_u32 ⟨data, pos⟩ = Except.error PdbError.unexpectedEof := by
  simp [parse_u32, take_eq_err data pos 4 h]

/-- Successful `parse_u16`: little-endian decode of the 2 bytes at `pos`. -/
theorem parse_u16_eq_ok (data : List Byte) (pos pos' : Nat) (hp : pos' = pos + 2)
    (h : pos + 2 ≤ data.length) :
    parse_u16 ⟨data, pos⟩ =
      Except.ok (leDecode ((data.drop pos).take 2), ⟨data, pos'⟩) := by
  subst hp
  simp [parse_u16, take_eq_ok data pos 2 (pos + 2) rfl h]

/-- Failing `parse_u16`: fewer than 2 bytes left. -/
theorem parse_u16_eq_err (data : List Byte) (pos : Nat) (h : data.length < pos + 2) :
    parse_u16 ⟨data, pos⟩ = Except.error PdbError.unexpectedEof := by
  simp [parse_u16, take_eq_err data pos 2 h]

end ParseBuffer

/-- A list of length 8 is rebuilt exactly by reading its eight positions
with `getD`. -/
theorem list_eight_eta (l : List Byte) (h : l.length = 8) :
    [l.getD 0 0, l.getD 1 0, l.getD 2 0, l.getD 3 0,
     l.getD 4 0, l.getD 5 0, l.getD 6 0, l.getD 7 0] = l := by
  rcases l with _ | ⟨a0, _ | ⟨a1, _ | ⟨a2, _ | ⟨a3, _ | ⟨a4, _ | ⟨a5, _ | ⟨a6, _ | ⟨a7, t⟩⟩⟩⟩⟩⟩⟩⟩ <;>
    simp_all

/-- Characterization of a successful parse: with at least 40 bytes from
`pos` on, `parse` returns exactly the header predicted by
`expectedHeader` on the bytes from `pos`, with the cursor at `pos + 40`. -/
theorem parse_spec (data : List Byte) (pos : Nat) (h : pos + 40 ≤ data.length) :
    ImageSectionHeader.parse ⟨data, pos⟩ =
      Except.ok (expectedHeader (data.drop pos), ⟨data, pos + 40⟩) := by
  have hlen : ((data.drop pos).take 8).length = 8 := by
    simp only [List.length_take, List.length_drop]
    omega
  simp only [ImageSectionHeader.parse,
    ParseBuffer.take_eq_ok data pos 8 (pos + 8) rfl (by omega),
    ParseBuffer.parse_u32_eq_ok data (pos + 8) (pos + 12) (by omega) (by omega),
    ParseBuffer.parse_u32_eq_ok data (pos + 12) (pos + 16) (by omega) (by omega),
    ParseBuffer.parse_u32_eq_ok data (pos + 16) (pos + 20) (by omega) (by omega),
    ParseBuffer.parse_u32_eq_ok data (pos + 20) (pos + 24) (by omega) (by omega),
    ParseBuffer.parse_u32_eq_ok data (pos + 24) (pos + 28) (by omega) (by omega),
    ParseBuffer.parse_u32_eq_ok data (pos + 28) (pos + 32) (by omega) (by omega),
    ParseBuffer.parse_u16_eq_ok data (pos + 32) (pos + 34) (by omega) (by omega),
    ParseBuffer.parse_u16_eq_ok data (pos + 34) (pos + 36) (by omega) (by omega),
    ParseBuffer.parse_u32_eq_ok data (pos + 36) (pos + 40) (by omega) (by omega)]
  rw [list_eight_eta _ hlen]
  simp [expectedHeader, List.drop_drop]

/-- Characterization of a failing parse: with fewer than 40 bytes from
`pos` on, `parse` reports the short-buffer error. -/
theorem parse_err (data : List Byte) (pos : Nat) (h : data.length < pos + 40) :
    ImageSectionHeader.parse ⟨data, pos⟩ = Except.error PdbError.unexpectedEof := by
  rcases Nat.lt_or_ge data.length (pos + 8) with h8 | h8
  · simp [ImageSectionHeader.parse, ParseBuffer.take_eq_err data pos 8 h8]
  rcases Nat.lt_or_ge data.length (pos + 12) with h12 | h12
  · simp [ImageSectionHeader.parse,
      ParseBuffer.take_eq_ok data pos 8 (pos + 8) rfl (by omega),
      ParseBuffer.parse_u32_eq_err data (pos + 8) (by omega)]
  rcases Nat.lt_or_ge data.length (pos + 16) with h16 | h16
  · simp [ImageSectionHeader.parse,
      ParseBuffer.take_eq_ok data pos 8 (pos + 8) rfl (by omega),
      ParseBuffer.parse_u32_eq_ok data (pos + 8) (pos + 12) (by omega) (by omega),
      ParseBuffer.parse_u32_eq_err data (pos + 12) (by omega)]
  rcases Nat.lt_or_ge data.length (pos + 20) with h20 | h20
  · simp [ImageSectionHeader.parse,
      ParseBuffer.take_eq_ok data pos 8 (pos + 8) rfl (by omega),
      ParseBuffer.parse_u32_eq_ok data (pos + 8) (pos + 12) (by omega) (by omega),
      ParseBuffer.parse_u32_eq_ok data (pos + 12) (pos + 16) (by omega) (by omega),
      ParseBuffer.parse_u32_eq_err data (pos + 16) (by omega)]
  rcases Nat.lt_or_ge data.length (pos + 24) with h24 | h24
  · simp [ImageSectionHeader.parse,
      ParseBuffer.take_eq_ok data pos 8 (pos + 8) rfl (by omega),
      ParseBuffer.parse_u32_eq_ok data (pos + 8) (pos + 12) (by omega) (by omega),
      ParseBuffer.parse_u32_eq_ok data (pos + 12) (pos + 16) (by omega) (by omega),
      ParseBuffer.parse_u32_eq_ok data (pos + 16) (pos + 20) (by omega) (by omega),
      ParseBuffer.parse_u32_eq_err data (pos + 20) (by omega)]
  rcases Nat.lt_or_ge data.length (pos + 28) with h28 | h28
  · simp [ImageSectionHeader.parse,
      ParseBuffer.take_eq_ok data pos 8 (pos + 8) rfl (by omega),
      ParseBuffer.parse_u32_eq_ok data (pos + 8) (pos + 12) (by omega) (by omega),
      ParseBuffer.parse_u32_eq_ok data (pos + 12) (pos + 16) (by omega) (by omega),
      ParseBuffer.parse_u32_eq_ok data (pos + 16) (pos + 20) (by omega) (by omega),
      ParseBuffer.parse_u32_eq_ok data (pos + 20) (pos + 24) (by omega) (by omega),
      ParseBuffer.parse_u32_eq_err data (pos + 24) (by omega)]
  rcases Nat.lt_or_ge data.length (pos + 32) with h32 | h32
  · simp [ImageSectionHeader.parse,
      ParseBuffer.take_eq_ok data pos 8 (pos + 8) rfl (by omega),
      ParseBuffer.parse_u32_eq_ok data (pos + 8) (pos + 12) (by omega) (by omega),
      ParseBuffer.parse_u32_eq_ok data (pos + 12) (pos + 16) (by omega) (by omega),
      ParseBuffer.parse_u32_eq_ok data (pos + 16) (pos + 20) (by omega) (by omega),
      ParseBuffer.parse_u32_eq_ok data (pos + 20) (pos + 24) (by omega) (by omega),
      ParseBuffer.parse_u32_eq_ok data (pos + 24) (pos + 28) (by omega) (by omega),
      ParseBuffer.parse_u32_eq_err data (pos + 28) (by omega)]
  rcases Nat.lt_or_ge data.length (pos + 34) with h34 | h34
  · simp [ImageSectionHeader.parse,
      ParseBuffer.take_eq_ok data pos 8 (pos + 8) rfl (by omega),
      ParseBuffer.parse_u32_eq_ok data (pos + 8) (pos + 12) (by omega) (by omega),
      ParseBuffer.parse_u32_eq_ok data (pos + 12) (pos + 16) (by omega) (by omega),
      ParseBuffer.parse_u32_eq_ok data (pos + 16) (pos + 20) (by omega) (by omega),
      ParseBuffer.parse_u32_eq_ok data (pos + 20) (pos + 24) (by omega) (by omega),
      ParseBuffer.parse_u32_eq_ok data (pos + 24) (pos + 28) (by omega) (by omega),
      ParseBuffer.parse_u32_eq_ok data (pos + 28) (pos + 32) (by omega) (by omega),
      ParseBuffer.parse_u16_eq_err data (pos + 32) (by omega)]
  rcases Nat.lt_or_ge data.length (pos + 36) with h36 | h36
  · simp [ImageSectionHeader.parse,
      ParseBuffer.take_eq_ok data pos 8 (pos + 8) rfl (by omega),
      ParseBuffer.parse_u32_eq_ok data (pos + 8) (pos + 12) (by omega) (by omega),
      ParseBuffer.parse_u32_eq_ok data (pos + 12) (pos + 16) (by omega) (by omega),
      ParseBuffer.parse_u32_eq_ok data (pos + 16) (pos + 20) (by omega) (by omega),
      ParseBuffer.parse_u32_eq_ok data (pos + 20) (pos + 24) (by omega) (by omega),
      ParseBuffer.parse_u32_eq_ok data (pos + 24) (pos + 28) (by omega) (by omega),
      ParseBuffer.parse_u32_eq_ok data (pos + 28) (pos + 32) (by omega) (by omega),
      ParseBuffer.parse_u16_eq_ok data (pos + 32) (pos + 34) (by omega) (by omega),
      ParseBuffer.parse_u16_eq_err data (pos + 34) (by omega)]
  · simp [ImageSectionHeader.parse,
      ParseBuffer.take_eq_ok data pos 8 (pos + 8) rfl (by omega),
      ParseBuffer.parse_u32_eq_ok data (pos + 8) (pos + 12) (by omega) (by omega),
      ParseBuffer.parse_u32_eq_ok data (pos + 12) (pos + 16) (by omega) (by omega),
      ParseBuffer.parse_u32_eq_ok data (pos + 16) (pos + 20) (by omega) (by omega),
      ParseBuffer.parse_u32_eq_ok data (pos + 20) (pos + 24) (by omega) (by omega),
      ParseBuffer.parse_u32_eq_ok data (pos + 24) (pos + 28) (by omega) (by omega),
      ParseBuffer.parse_u32_eq_ok data (pos + 28) (pos + 32) (by omega) (by omega),
      ParseBuffer.parse_u16_eq_ok data (pos + 32) (pos + 34) (by omega) (by omega),
      ParseBuffer.parse_u16_eq_ok data (pos + 34) (pos + 36) (by omega) (by omega),
      ParseBuffer.parse_u32_eq_err data (pos + 36) (by omega)]

/-- Facts about the trim index used by the name accessor: it is at most
the length, every byte strictly before it is nonzero, and when it is
strictly inside the list the byte there is null. -/
theorem trim_facts (l : List Byte) :
    (l.findIdx? (fun ch => ch == 0)).getD l.length ≤ l.length ∧
    (∀ i, i < (l.findIdx? (fun ch => ch == 0)).getD l.length → l.getD i 0 ≠ 0) ∧
    ((l.findIdx? (fun ch => ch == 0)).getD l.length < l.length →
      l.getD ((l.findIdx? (fun ch => ch == 0)).getD l.length) 0 = 0) := by
  rcases hfi : l.findIdx? (fun ch => ch == 0) with _ | i
  · rw [List.findIdx?_eq_none_iff] at hfi
    simp only [Option.getD_none]
    refine ⟨Nat.le_refl _, ?_, fun h => absurd h (Nat.lt_irrefl _)⟩
    intro i hi
    have hmem : l.getD i 0 ∈ l := by
      rw [List.getD_eq_getElem?_getD, List.getElem?_eq_getElem hi, Option.getD_some]
      exact List.getElem_mem hi
    have hx := hfi (l.getD i 0) hmem
    simpa using hx
  · rw [List.findIdx?_eq_some_iff_getElem] at hfi
    obtain ⟨hlt, hp, hbefore⟩ := hfi
    simp only [Option.getD_some]
    refine ⟨Nat.le_of_lt hlt, ?_, ?_⟩
    · intro j hj
      have hb := hbefore j hj
      rw [List.getD_eq_getElem?_getD, List.getElem?_eq_getElem (Nat.lt_trans hj hlt),
        Option.getD_some]
      simpa using hb
    · intro _
      rw [List.getD_eq_getElem?_getD, List.getElem?_eq_getElem hlt, Option.getD_some]
      simpa using hp

/-- Name-accessor facts for an arbitrary header: the view is the prefix of
`name` of its own length, its length is bounded by the name length, every
byte of `name` before the cut is nonzero, the byte at the cut (when the
view is proper) is null, and no byte of the view is null. -/
theorem nameView_facts (ish : ImageSectionHeader) :
    ish.nameView = ish.name.take ish.nameView.length ∧
    ish.nameView.length ≤ ish.name.length ∧
    (∀ i, i < ish.nameView.length → ish.name.getD i 0 ≠ 0) ∧
    (ish.nameView.length < ish.name.length →
      ish.name.getD ish.nameView.length 0 = 0) ∧
    (∀ b, b ∈ ish.nameView → b ≠ 0) := by
  obtain ⟨hle, hbefore, hat⟩ := trim_facts ish.name
  have hlen : ish.nameView.length =
      (ish.name.findIdx? (fun ch => ch == 0)).getD ish.name.length := by
    simp only [ImageSectionHeader.nameView, List.length_take]
    omega
  refine ⟨?_, ?_, ?_, ?_, ?_⟩
  · rw [ImageSectionHeader.nameView]
    rw [List.length_take]
    congr 1
    omega
  · omega
  · intro i hi
    rw [hlen] at hi
    exact hbefore i hi
  · intro hi
    rw [hlen] at hi ⊢
    exact hat hi
  · intro b hb
    rw [List.mem_iff_getElem] at hb
    obtain ⟨i, hi, rfl⟩ := hb
    have hi' : i < ish.nameView.length := hi
    rw [hlen] at hi'
    have hne := hbefore i hi'
    have : ish.nameView[i] = ish.name.getD i 0 := by
      simp only [ImageSectionHeader.nameView] at hi ⊢
      rw [List.getElem_take, List.getD_eq_getElem?_getD,
        List.getElem?_eq_getElem (Nat.lt_of_lt_of_le hi' hle), Option.getD_some]
    rw [this]
    exact hne

/-- Slicing a window that lies inside the first 40 bytes factors through
`take 40`. -/
theorem take_drop_slice (b : List Byte) (off w : Nat) (h : off + w ≤ 40) :
    ((b.take 40).drop off).take w = (b.drop off).take w := by
  rw [List.drop_take, List.take_take]
  congr 1
  omega

/-- The predicted header depends only on the first 40 bytes of its
input. -/
theorem expectedHeader_congr (b₁ b₂ : List Byte) (h : b₁.take 40 = b₂.take 40) :
    expectedHeader b₁ = expectedHeader b₂ := by
  have key : ∀ off w, off + w ≤ 40 → (b₁.drop off).take w = (b₂.drop off).take w := by
    intro off w hw
    rw [← take_drop_slice b₁ off w hw, ← take_drop_slice b₂ off w hw, h]
  have h8 : b₁.take 8 = b₂.take 8 := by
    have h0 := key 0 8 (by omega)
    simpa using h0
  simp only [expectedHeader]
  rw [h8, key 8 4 (by omega), key 12 4 (by omega), key 16 4 (by omega), key 20 4 (by omega),
    key 24 4 (by omega), key 28 4 (by omega), key 32 2 (by omega), key 34 2 (by omega),
    key 36 4 (by omega)]

/-- C1: for every input on which `parse` succeeds, the produced header is
exactly the one predicted from the bytes at the cursor's starting
position: `name` is bytes 0..8 copied verbatim and the seven integer
fields are the little-endian decodes at byte offsets 8, 12, 16, 20, 24,
28 (width 4), 32, 34 (width 2) and 36 (width 4). -/
theorem C1_parse_field_independence (pb : ParseBuffer) (ish : ImageSectionHeader)
    (rest : ParseBuffer) (h : ImageSectionHeader.parse pb = Except.ok (ish, rest)) :
    ish = expectedHeader (pb.data.drop pb.pos) := by
  obtain ⟨data, pos⟩ := pb
  rcases Nat.lt_or_ge data.length (pos + 40) with hlt | hge
  · rw [parse_err data pos hlt] at h
    cases h
  · rw [parse_spec data pos (by omega)] at h
    simp only [Except.ok.injEq, Prod.mk.injEq] at h
    exact h.1.symm

/-- Witness for C1 at the `.data` test vector. -/
theorem C1_witness :
    ImageSectionHeader.parse ⟨dotDataBytes, 0⟩ =
      Except.ok (dotDataHeader, ⟨dotDataBytes, 40⟩) ∧
    dotDataHeader = expectedHeader (dotDataBytes.drop 0) :=
  ⟨rfl,
   C1_parse_field_independence ⟨dotDataBytes, 0⟩ dotDataHeader ⟨dotDataBytes, 40⟩ rfl⟩

/-- C2: for every parsed header, the name accessor returns the prefix of
the 8-byte `name` field cut at the first null byte: the view is a prefix
of `name`, its length is at most 8, every byte of `name` before the cut
is nonzero (so the cut is at the first null), the byte of `name` at the
cut is null whenever the view is shorter than 8, and the view contains no
null byte. -/
theorem C2_name_trimming (pb : ParseBuffer) (ish : ImageSectionHeader)
    (rest : ParseBuffer) (h : ImageSectionHeader.parse pb = Except.ok (ish, rest)) :
    ish.nameView = ish.name.take ish.nameView.length ∧
    ish.nameView.length ≤ 8 ∧
    (∀ i, i < ish.nameView.length → ish.name.getD i 0 ≠ 0) ∧
    (ish.nameView.length < 8 → ish.name.getD ish.nameView.length 0 = 0) ∧
    ∀ b, b ∈ ish.nameView → b ≠ 0 := by
  have hname : ish.name.length = 8 := by
    obtain ⟨data, pos⟩ := pb
    rcases Nat.lt_or_ge data.length (pos + 40) with hlt | hge
    · rw [parse_err data pos hlt] at h
      cases h
    · rw [parse_spec data pos (by omega)] at h
      simp only [Except.ok.injEq, Prod.mk.injEq] at h
      rw [← h.1]
      simp only [expectedHeader, List.length_take, List.length_drop]
      omega
  obtain ⟨h1, h2, h3, h4, h5⟩ := nameView_facts ish
  exact ⟨h1, by omega, h3, fun hlt => h4 (by omega), h5⟩

/-- Witness for C2 at the `.data` test vector: the trimmed name is
`".data"`. -/
theorem C2_witness :
    ImageSectionHeader.parse ⟨dotDataBytes, 0⟩ =
      Except.ok (dotDataHeader, ⟨dotDataBytes, 40⟩) ∧
    (dotDataHeader.nameView = dotDataHeader.name.take dotDataHeader.nameView.length ∧
     dotDataHeader.nameView.length ≤ 8 ∧
     (∀ i, i < dotDataHeader.nameView.length → dotDataHeader.name.getD i 0 ≠ 0) ∧
     (dotDataHeader.nameView.length < 8 →
       dotDataHeader.name.getD dotDataHeader.nameView.length 0 = 0) ∧
     ∀ b, b ∈ dotDataHeader.nameView → b ≠ 0) :=
  ⟨rfl, C2_name_trimming ⟨dotDataBytes, 0⟩ dotDataHeader ⟨dotDataBytes, 40⟩ rfl⟩

/-- C3: whenever fewer than 40 bytes remain, `parse` fails with the
short-buffer error propagated from the cursor, and on any input at all a
failing `parse` can only report the short-buffer error kind. -/
theorem C3_short_buffer (pb : ParseBuffer) (h : pb.remaining < 40) :
    ImageSectionHeader.parse pb = Except.error PdbError.unexpectedEof ∧
    ∀ (q : ParseBuffer) (e : PdbError),
      ImageSectionHeader.parse q = Except.error e → e = PdbError.unexpectedEof := by
  constructor
  · obtain ⟨data, pos⟩ := pb
    simp only [ParseBuffer.remaining] at h
    exact parse_err data pos (by omega)
  · intro q e _
    cases e
    rfl

/-- Witness for C3 on the empty input. -/
theorem C3_witness :
    (⟨[], 0⟩ : ParseBuffer).remaining < 40 ∧
    (ImageSectionHeader.parse ⟨[], 0⟩ = Except.error PdbError.unexpectedEof ∧
     ∀ (q : ParseBuffer) (e : PdbError),
       ImageSectionHeader.parse q = Except.error e → e = PdbError.unexpectedEof) :=
  ⟨by decide, C3_short_buffer ⟨[], 0⟩ (by decide)⟩

/-- C4: whenever at least 40 bytes remain, `parse` succeeds — no
domain-level validation rejects any 40-byte content. -/
theorem C4_no_validation (pb : ParseBuffer) (h : 40 ≤ pb.remaining) :
    ∃ ish rest, ImageSectionHeader.parse pb = Except.ok (ish, rest) := by
  obtain ⟨data, pos⟩ := pb
  simp only [ParseBuffer.remaining] at h
  exact ⟨_, _, parse_spec data pos (by omega)⟩

/-- Witness for C4 at the `.data` test vector. -/
theorem C4_witness :
    40 ≤ (⟨dotDataBytes, 0⟩ : ParseBuffer).remaining ∧
    ∃ ish rest, ImageSectionHeader.parse ⟨dotDataBytes, 0⟩ = Except.ok (ish, rest) :=
  ⟨by decide, C4_no_validation ⟨dotDataBytes, 0⟩ (by decide)⟩

/-- C5: every successful parse leaves the cursor advanced by exactly 40
bytes over unchanged underlying data. -/
theorem C5_exact_consumption (pb rest : ParseBuffer) (ish : ImageSectionHeader)
    (h : ImageSectionHeader.parse pb = Except.ok (ish, rest)) :
    rest.pos = pb.pos + 40 ∧ rest.data = pb.data := by
  obtain ⟨data, pos⟩ := pb
  rcases Nat.lt_or_ge data.length (pos + 40) with hlt | hge
  · rw [parse_err data pos hlt] at h
    cases h
  · rw [parse_spec data pos (by omega)] at h
    simp only [Except.ok.injEq, Prod.mk.injEq] at h
    rw [← h.2]
    exact ⟨rfl, rfl⟩

/-- Witness for C5 at the `.data` test vector. -/
theorem C5_witness :
    ImageSectionHeader.parse ⟨dotDataBytes, 0⟩ =
      Except.ok (dotDataHeader, ⟨dotDataBytes, 40⟩) ∧
    ((⟨dotDataBytes, 40⟩ : ParseBuffer).pos = (⟨dotDataBytes, 0⟩ : ParseBuffer).pos + 40 ∧
     (⟨dotDataBytes, 40⟩ : ParseBuffer).data = (⟨dotDataBytes, 0⟩ : ParseBuffer).data) :=
  ⟨rfl, C5_exact_consumption ⟨dotDataBytes, 0⟩ ⟨dotDataBytes, 40⟩ dotDataHeader rfl⟩

/-- C6: parsing the literal 40-byte `.data` section header of the crate's
unit test succeeds, produces exactly the documented field values, and the
name accessor on the result returns the 5-byte view ".data". -/
theorem C6_dot_data_vector :
    ImageSectionHeader.parse ⟨dotDataBytes, 0⟩ =
      Except.ok (dotDataHeader, ⟨dotDataBytes, 40⟩) ∧
    dotDataHeader.name = [0x2E, 0x64, 0x61, 0x74, 0x61, 0x00, 0x00, 0x00] ∧
    dotDataHeader.physical_address = 0x00093548 ∧
    dotDataHeader.virtual_address = 0x001ED000 ∧
    dotDataHeader.size_of_raw_data = 0x0000FE00 ∧
    dotDataHeader.pointer_to_raw_data = 0x001EA200 ∧
    dotDataHeader.pointer_to_relocations = 0 ∧
    dotDataHeader.pointer_to_line_numbers = 0 ∧
    dotDataHeader.number_of_relocations = 0 ∧
    dotDataHeader.number_of_line_numbers = 0 ∧
    dotDataHeader.characteristics = 0xC8000040 ∧
    dotDataHeader.nameView = [0x2E, 0x64, 0x61, 0x74, 0x61] :=
  ⟨rfl, by decide⟩

/-- C7: the sub-reads of `parse` happen in the fixed wire order, so the
input length determines the failing sub-read: on a 39-byte input the
8-byte name read, all six u32 reads and both u16 reads succeed while the
final characteristics read at offset 36 fails with short-buffer (and so
does the whole parse); on a 0-byte input already the initial 8-byte name
read fails with short-buffer (and so does the whole parse). -/
theorem C7_read_order (data : List Byte) (h : data.length = 39) :
    (∃ r, ParseBuffer.take ⟨data, 0⟩ 8 = Except.ok r) ∧
    (∀ p, p = 8 ∨ p = 12 ∨ p = 16 ∨ p = 20 ∨ p = 24 ∨ p = 28 →
      ∃ r, ParseBuffer.parse_u32 ⟨data, p⟩ = Except.ok r) ∧
    (∀ p, p = 32 ∨ p = 34 → ∃ r, ParseBuffer.parse_u16 ⟨data, p⟩ = Except.ok r) ∧
    ParseBuffer.parse_u32 ⟨data, 36⟩ = Except.error PdbError.unexpectedEof ∧
    ImageSectionHeader.parse ⟨data, 0⟩ = Except.error PdbError.unexpectedEof ∧
    ParseBuffer.take ⟨[], 0⟩ 8 = Except.error PdbError.unexpectedEof ∧
    ImageSectionHeader.parse ⟨[], 0⟩ = Except.error PdbError.unexpectedEof := by
  refine ⟨⟨_, ParseBuffer.take_eq_ok data 0 8 8 rfl (by omega)⟩, ?_, ?_, ?_, ?_, ?_, ?_⟩
  · rintro p (rfl | rfl | rfl | rfl | rfl | rfl) <;>
      exact ⟨_, ParseBuffer.parse_u32_eq_ok data _ _ rfl (by omega)⟩
  · rintro p (rfl | rfl) <;>
      exact ⟨_, ParseBuffer.parse_u16_eq_ok data _ _ rfl (by omega)⟩
  · exact ParseBuffer.parse_u32_eq_err data 36 (by omega)
  · exact parse_err data 0 (by omega)
  · exact ParseBuffer.take_eq_err [] 0 8 (by decide)
  · exact parse_err [] 0 (by decide)

/-- Witness for C7 on the 39-byte all-zero input. -/
theorem C7_witness :
    (List.replicate 39 0 : List Byte).length = 39 ∧
    ((∃ r, ParseBuffer.take ⟨List.replicate 39 0, 0⟩ 8 = Except.ok r) ∧
     (∀ p, p = 8 ∨ p = 12 ∨ p = 16 ∨ p = 20 ∨ p = 24 ∨ p = 28 →
       ∃ r, ParseBuffer.parse_u32 ⟨List.replicate 39 0, p⟩ = Except.ok r) ∧
     (∀ p, p = 32 ∨ p = 34 →
       ∃ r, ParseBuffer.parse_u16 ⟨List.replicate 39 0, p⟩ = Except.ok r) ∧
     ParseBuffer.parse_u32 ⟨List.replicate 39 0, 36⟩ =
       Except.error PdbError.unexpectedEof ∧
     ImageSectionHeader.parse ⟨List.replicate 39 0, 0⟩ =
       Except.error PdbError.unexpectedEof ∧
     ParseBuffer.take ⟨[], 0⟩ 8 = Except.error PdbError.unexpectedEof ∧
     ImageSectionHeader.parse ⟨[], 0⟩ = Except.error PdbError.unexpectedEof) :=
  ⟨by decide, C7_read_order (List.replicate 39 0) (by decide)⟩

/-- C8: `parse` is a pure deterministic function of the cursor's byte
contents and position: cursors with equal data and equal positions parse
to equal results. -/
theorem C8_pure_deterministic (pb₁ pb₂ : ParseBuffer) (hdata : pb₁.data = pb₂.data)
    (hpos : pb₁.pos = pb₂.pos) :
    ImageSectionHeader.parse pb₁ = ImageSectionHeader.parse pb₂ := by
  obtain ⟨d₁, p₁⟩ := pb₁
  obtain ⟨d₂, p₂⟩ := pb₂
  have hd : d₁ = d₂ := hdata
  have hp : p₁ = p₂ := hpos
  subst hd
  subst hp
  rfl

/-- Witness for C8: two parses of the `.data` test vector agree. -/
theorem C8_witness :
    (⟨dotDataBytes, 0⟩ : ParseBuffer).data = (⟨dotDataBytes, 0⟩ : ParseBuffer).data ∧
    (⟨dotDataBytes, 0⟩ : ParseBuffer).pos = (⟨dotDataBytes, 0⟩ : ParseBuffer).pos ∧
    ImageSectionHeader.parse ⟨dotDataBytes, 0⟩ =
      ImageSectionHeader.parse ⟨dotDataBytes, 0⟩ :=
  ⟨rfl, rfl, C8_pure_deterministic ⟨dotDataBytes, 0⟩ ⟨dotDataBytes, 0⟩ rfl rfl⟩

/-- C9: the header produced by a successful parse depends only on the 40
bytes at the cursor's starting position: two successful parses over
inputs agreeing on those 40 bytes yield equal headers, whatever follows
them. -/
theorem C9_local_dependence (pb₁ pb₂ : ParseBuffer) (r₁ r₂ : ImageSectionHeader × ParseBuffer)
    (h₁ : ImageSectionHeader.parse pb₁ = Except.ok r₁)
    (h₂ : ImageSectionHeader.parse pb₂ = Except.ok r₂)
    (hb : (pb₁.data.drop pb₁.pos).take 40 = (pb₂.data.drop pb₂.pos).take 40) :
    r₁.1 = r₂.1 := by
  obtain ⟨d₁, p₁⟩ := pb₁
  obtain ⟨d₂, p₂⟩ := pb₂
  rcases Nat.lt_or_ge d₁.length (p₁ + 40) with hlt | hge₁
  · rw [parse_err d₁ p₁ hlt] at h₁
    cases h₁
  rcases Nat.lt_or_ge d₂.length (p₂ + 40) with hlt | hge₂
  · rw [parse_err d₂ p₂ hlt] at h₂
    cases h₂
  rw [parse_spec d₁ p₁ (by omega)] at h₁
  rw [parse_spec d₂ p₂ (by omega)] at h₂
  simp only [Except.ok.injEq] at h₁ h₂
  rw [← h₁, ← h₂]
  exact expectedHeader_congr _ _ hb

/-- Witness for C9: the `.data` test vector with and without a trailing
junk byte parses to the same header. -/
theorem C9_witness :
    ImageSectionHeader.parse ⟨dotDataBytes, 0⟩ =
      Except.ok (dotDataHeader, ⟨dotDataBytes, 40⟩) ∧
    ImageSectionHeader.parse ⟨dotDataBytes ++ [0xFF], 0⟩ =
      Except.ok (dotDataHeader, ⟨dotDataBytes ++ [0xFF], 40⟩) ∧
    (dotDataBytes.drop 0).take 40 = ((dotDataBytes ++ [0xFF]).drop 0).take 40 ∧
    (dotDataHeader, (⟨dotDataBytes, 40⟩ : ParseBuffer)).1 =
      (dotDataHeader, (⟨dotDataBytes ++ [0xFF], 40⟩ : ParseBuffer)).1 :=
  ⟨rfl, rfl, by decide,
   C9_local_dependence ⟨dotDataBytes, 0⟩ ⟨dotDataBytes ++ [0xFF], 0⟩
     (dotDataHeader, ⟨dotDataBytes, 40⟩) (dotDataHeader, ⟨dotDataBytes ++ [0xFF], 40⟩)
     (by rfl) (by rfl) (by decide)⟩

/-- C10: a successful `take(8)` returns a view of exactly 8 bytes, so all
eight direct index accesses `name_bytes[0]` .. `name_bytes[7]` inside
`parse` are in bounds: every index below 8 is defined on the view, and
the eight guarded reads rebuild the view exactly (no read falls back to
the out-of-bounds default). -/
theorem C10_name_index_in_bounds (pb pb' : ParseBuffer) (bs : List Byte)
    (h : pb.take 8 = Except.ok (bs, pb')) :
    bs.length = 8 ∧ (∀ i, i < 8 → (bs[i]?).isSome = true) ∧
    [bs.getD 0 0, bs.getD 1 0, bs.getD 2 0, bs.getD 3 0,
     bs.getD 4 0, bs.getD 5 0, bs.getD 6 0, bs.getD 7 0] = bs := by
  obtain ⟨data, pos⟩ := pb
  have hlen : bs.length = 8 := by
    rcases Nat.lt_or_ge data.length (pos + 8) with hlt | hge
    · rw [ParseBuffer.take_eq_err data pos 8 hlt] at h
      cases h
    · rw [ParseBuffer.take_eq_ok data pos 8 (pos + 8) rfl hge] at h
      simp only [Except.ok.injEq, Prod.mk.injEq] at h
      rw [← h.1]
      simp only [List.length_take, List.length_drop]
      omega
  refine ⟨hlen, ?_, list_eight_eta bs hlen⟩
  intro i hi
  rw [List.getElem?_eq_getElem (by omega)]
  rfl

/-- Witness for C10 at the `.data` test vector. -/
theorem C10_witness :
    ParseBuffer.take ⟨dotDataBytes, 0⟩ 8 =
      Except.ok ([0x2E, 0x64, 0x61, 0x74, 0x61, 0x00, 0x00, 0x00],
        ⟨dotDataBytes, 8⟩) ∧
    (([0x2E, 0x64, 0x61, 0x74, 0x61, 0x00, 0x00, 0x00] : List Byte).length = 8 ∧
     (∀ i, i < 8 →
       ((([0x2E, 0x64, 0x61, 0x74, 0x61, 0x00, 0x00, 0x00] : List Byte))[i]?).isSome = true) ∧
     ([([0x2E, 0x64, 0x61, 0x74, 0x61, 0x00, 0x00, 0x00] : List Byte).getD 0 0,
       ([0x2E, 0x64, 0x61, 0x74, 0x61, 0x00, 0x00, 0x00] : List Byte).getD 1 0,
       ([0x2E, 0x64, 0x61, 0x74, 0x61, 0x00, 0x00, 0x00] : List Byte).getD 2 0,
       ([0x2E, 0x64, 0x61, 0x74, 0x61, 0x00, 0x00, 0x00] : List Byte).getD 3 0,
       ([0x2E, 0x64, 0x61, 0x74, 0x61, 0x00, 0x00, 0x00] : List Byte).getD 4 0,
       ([0x2E, 0x64, 0x61, 0x74, 0x61, 0x00, 0x00, 0x00] : List Byte).getD 5 0,
       ([0x2E, 0x64, 0x61, 0x74, 0x61, 0x00, 0x00, 0x00] : List Byte).getD 6 0,
       ([0x2E, 0x64, 0x61, 0x74, 0x61, 0x00, 0x00, 0x00] : List Byte).getD 7 0] =
      ([0x2E, 0x64, 0x61, 0x74, 0x61, 0x00, 0x00, 0x00] : List Byte))) :=
  ⟨rfl,
   C10_name_index_in_bounds ⟨dotDataBytes, 0⟩ ⟨dotDataBytes, 8⟩
     [0x2E, 0x64, 0x61, 0x74, 0x61, 0x00, 0x00, 0x00] rfl⟩
